import Mathlib

/-!
# fluxgate auth-service: credential verification and token lifecycle

A shallow embedding of `src/auth-service/main.go` and the properties of its
three request handlers (`loginHandler`, `registerHandler`,
`validateTokenHandler`) and of `generateJWT`.

Modelling conventions.

* A Go `string` is a sequence of bytes (`GoString`); `len` is the number of
  bytes and `s[i:j]` slices bytes.
* The process-wide `users` map is passed in and returned explicitly.  It is a
  list of key/value pairs; `range` visits the pairs in list order, and since Go
  leaves the iteration order unspecified the reachability relation is closed
  under reordering the list.
* Everything a handler obtains from outside the program text is an explicit
  argument: the result of decoding the JSON body, the bytes drawn from
  `crypto/rand`, the readings of `time.Now()`.
* Timestamps are whole seconds since the Unix epoch, the resolution of
  `jwt.NumericDate` (`jwt.TimePrecision` is one second and `NewNumericDate`
  truncates to it; 24h is a whole number of seconds).
* The two third-party packages, `golang.org/x/crypto/bcrypt` and
  `github.com/golang-jwt/jwt/v5`, are not part of the repository.  Their
  primitives (hashing, MAC, base64/JSON wire codec) are the fields of `Lib`;
  the control flow of `jwt.ParseWithClaims` that the handler relies on is
  written out after the library's documented behaviour.
* An HTTP response is its status code and body.
-/

namespace AuthService

/-! ## Go strings -/

/-- Go `string`: an immutable sequence of bytes. -/
abbrev GoString := List UInt8

/-- The bytes of an ASCII string literal of the source. -/
def lit (s : String) : GoString := s.toList.map (fun c => c.toNat.toUInt8)

/-- Outcome of a Go evaluation that may hit a run-time panic. -/
inductive Panic where
  | sliceOutOfRange
deriving DecidableEq, Repr

deriving instance DecidableEq for Except

/-- Go `s[:hi]`; panics when `hi > len(s)`. -/
def sliceTo (s : GoString) (hi : Nat) : Except Panic GoString :=
  if hi ≤ s.length then .ok (s.take hi) else .error .sliceOutOfRange

/-- Go `s[lo:]`; panics when `lo > len(s)`. -/
def sliceFrom (s : GoString) (lo : Nat) : Except Panic GoString :=
  if lo ≤ s.length then .ok (s.drop lo) else .error .sliceOutOfRange

/-! ## Data model (main.go lines 17-53) -/

/-- Go `type User struct` (lines 18-23). -/
structure User where
  ID : GoString
  Username : GoString
  Email : GoString
  Password : GoString
deriving DecidableEq, Repr

/-- Go `type LoginRequest struct` (lines 26-29). -/
structure LoginRequest where
  Username : GoString
  Password : GoString
deriving DecidableEq, Repr

/-- Go `type RegisterRequest struct` (lines 32-36). -/
structure RegisterRequest where
  Username : GoString
  Email : GoString
  Password : GoString
deriving DecidableEq, Repr

/-- Go `type AuthResponse struct` (lines 39-42). -/
structure AuthResponse where
  Token : GoString
  User : User
deriving DecidableEq, Repr

/-- The fields of `jwt.RegisteredClaims`; the three dates are pointers in Go
and may be absent. -/
structure RegisteredClaims where
  Issuer : GoString
  Subject : GoString
  Audience : List GoString
  ExpiresAt : Option Int
  NotBefore : Option Int
  IssuedAt : Option Int
  ID : GoString
deriving DecidableEq, Repr

/-- Go `type Claims struct` (lines 45-49): two own fields and the embedded
`jwt.RegisteredClaims`. -/
structure Claims extends RegisteredClaims where
  UserID : GoString
  Username : GoString
deriving DecidableEq, Repr

/-- The `users` map (line 52), `map[string]User`. -/
abbrev Store := List (GoString × User)

/-- Go `users[k]` with the comma-ok form: the value bound to `k`, if any. -/
def Store.get (m : Store) (k : GoString) : Option User :=
  match m with
  | [] => none
  | e :: rest => if e.1 = k then some e.2 else Store.get rest k

/-- Go `users[k] = v`: rebinds `k` when it is a key, adds the pair otherwise. -/
def Store.set (m : Store) (k : GoString) (v : User) : Store :=
  match m with
  | [] => [(k, v)]
  | e :: rest => if e.1 = k then (k, v) :: rest else e :: Store.set rest k v

/-- The signing secret (line 53). -/
def jwtSecret : GoString := lit "your-secret-key-change-in-production"

/-! ## HTTP responses -/

/-- What a handler writes as the response body. -/
inductive Body where
  | text (bytes : GoString)
  | json (r : AuthResponse)
deriving DecidableEq, Repr

/-- Status code and body of the response a handler writes. -/
structure Response where
  status : Nat
  body : Body
deriving DecidableEq, Repr

/-- Go `http.Error(w, msg, code)`: status `code`, body `msg` and a newline. -/
def httpError (msg : GoString) (code : Nat) : Response :=
  { status := code, body := .text (msg ++ lit "\n") }

def StatusOK : Nat := 200
def StatusCreated : Nat := 201
def StatusBadRequest : Nat := 400
def StatusUnauthorized : Nat := 401
def StatusConflict : Nat := 409
def StatusInternalServerError : Nat := 500

/-! ## Third-party libraries -/

/-- The errors of `golang.org/x/crypto/bcrypt`. -/
inductive BcryptError where
  | mismatchedHashAndPassword
  | hashTooShort
  | hashVersionTooNew
  | invalidHashPrefix
  | invalidCost
  | passwordTooLong
deriving DecidableEq, Repr

/-- The registered signing methods of `golang-jwt/jwt/v5`. -/
inductive SigningMethod where
  | HS256 | HS384 | HS512
  | RS256 | RS384 | RS512
  | PS256 | PS384 | PS512
  | ES256 | ES384 | ES512
  | EdDSA
  | none
deriving DecidableEq, Repr

/-- Go `jwt.GetSigningMethod(alg)`: the method registered under `alg`. -/
def GetSigningMethod (alg : GoString) : Option SigningMethod :=
  if alg = lit "HS256" then some .HS256
  else if alg = lit "HS384" then some .HS384
  else if alg = lit "HS512" then some .HS512
  else if alg = lit "RS256" then some .RS256
  else if alg = lit "RS384" then some .RS384
  else if alg = lit "RS512" then some .RS512
  else if alg = lit "PS256" then some .PS256
  else if alg = lit "PS384" then some .PS384
  else if alg = lit "PS512" then some .PS512
  else if alg = lit "ES256" then some .ES256
  else if alg = lit "ES384" then some .ES384
  else if alg = lit "ES512" then some .ES512
  else if alg = lit "EdDSA" then some .EdDSA
  else if alg = lit "none" then some .none
  else Option.none

/-- Go `m.Alg()`. -/
def SigningMethod.Alg : SigningMethod → GoString
  | .HS256 => lit "HS256" | .HS384 => lit "HS384" | .HS512 => lit "HS512"
  | .RS256 => lit "RS256" | .RS384 => lit "RS384" | .RS512 => lit "RS512"
  | .PS256 => lit "PS256" | .PS384 => lit "PS384" | .PS512 => lit "PS512"
  | .ES256 => lit "ES256" | .ES384 => lit "ES384" | .ES512 => lit "ES512"
  | .EdDSA => lit "EdDSA" | .none => lit "none"

/-- Go type assertion `m.(*jwt.SigningMethodHMAC)`: the three HMAC methods
are the values of that type. -/
def SigningMethod.isHMAC : SigningMethod → Bool
  | .HS256 | .HS384 | .HS512 => true
  | _ => false

/-- What the structural parse of a token string yields: the `alg` entry of the
decoded header (when it is a string), the decoded claims, the signing input
(the first two segments joined by a dot) and the third segment. -/
structure Segments where
  headerAlg : Option GoString
  claims : Claims
  text : GoString
  sigSegment : GoString
deriving DecidableEq, Repr

/-- The primitives of the two third-party packages. -/
structure Lib where
  /-- `bcrypt.GenerateFromPassword(password, cost)`, with the salt it draws. -/
  GenerateFromPassword : GoString → Nat → Nat → Except BcryptError GoString
  /-- `bcrypt.CompareHashAndPassword(hash, password)`; `none` is the nil error. -/
  CompareHashAndPassword : GoString → GoString → Option BcryptError
  /-- Splitting a token string at its dots, base64url- and JSON-decoding the
  header and the claims. -/
  decodeSegments : GoString → Option Segments
  /-- `Parser.DecodeSegment`: base64url decoding of the signature segment. -/
  DecodeSegment : GoString → Option GoString
  /-- `Token.EncodeSegment`. -/
  EncodeSegment : GoString → GoString
  /-- `Token.SigningString()`: the encoded header (carrying `alg`) and claims. -/
  SigningString : GoString → Claims → GoString
  /-- `SigningMethodHMAC.Sign(signingString, key)` for a byte-slice key. -/
  Sign : SigningMethod → GoString → GoString → GoString
  /-- `SigningMethod.Verify(signingString, sig, key)`; `true` is the nil error. -/
  Verify : SigningMethod → GoString → GoString → GoString → Bool

/-- Go `bcrypt.DefaultCost`. -/
def DefaultCost : Nat := 10

/-- Go `jwt.Token`, as far as the program looks at it. -/
structure Token where
  Raw : GoString
  Method : SigningMethod
  HeaderAlg : GoString
  Claims : Claims
  Signature : GoString
  Valid : Bool
deriving DecidableEq, Repr

/-- The error kinds of `jwt.ParseWithClaims`. -/
inductive ParseError where
  | malformed
  | unverifiable
  | signatureInvalid
  | expired
  | notValidYet
deriving DecidableEq, Repr

/-- Go `Parser.ParseUnverified`: structural parse and lookup of the signing
method named by the header. -/
def ParseUnverified (L : Lib) (tokenString : GoString) : Except ParseError (Token × Segments) :=
  match L.decodeSegments tokenString with
  | Option.none => .error .malformed
  | some d =>
    match d.headerAlg with
    | Option.none => .error .unverifiable
    | some alg =>
      match GetSigningMethod alg with
      | Option.none => .error .unverifiable
      | some m =>
        .ok ({ Raw := tokenString, Method := m, HeaderAlg := alg, Claims := d.claims,
               Signature := [], Valid := false }, d)

/-- Go `Validator.Validate` with the default options: `exp` and `nbf` are
checked when present, against the clock reading `now`. -/
def Validate (c : Claims) (now : Int) : Except ParseError Unit :=
  match c.ExpiresAt with
  | some exp =>
    if now < exp then
      (match c.NotBefore with
       | some nbf => if nbf ≤ now then .ok () else .error .notValidYet
       | Option.none => .ok ())
    else .error .expired
  | Option.none =>
    match c.NotBefore with
    | some nbf => if nbf ≤ now then .ok () else .error .notValidYet
    | Option.none => .ok ()

/-- Go `jwt.ParseWithClaims(tokenString, claims, keyFunc)` with a default
parser: parse, decode the signature, ask `keyFunc` for the key, verify the
signature with the token's own method, validate the claims. -/
def ParseWithClaims (L : Lib) (tokenString : GoString)
    (keyFunc : Token → Except GoString GoString) (now : Int) : Except ParseError Token :=
  match ParseUnverified L tokenString with
  | .error e => .error e
  | .ok (token, d) =>
    match L.DecodeSegment d.sigSegment with
    | Option.none => .error .malformed
    | some sig =>
      match keyFunc token with
      | .error _ => .error .unverifiable
      | .ok key =>
        if L.Verify token.Method d.text sig key then
          match Validate token.Claims now with
          | .error e => .error e
          | .ok _ => .ok { token with Signature := sig, Valid := true }
        else .error .signatureInvalid

/-- Go `jwt.NewWithClaims(method, claims).SignedString(key)`.  The program
calls it with an HMAC method and a byte-slice key, for which neither the
encoding nor `Sign` has a failure path; the error result is kept so that the
callers keep their error branch. -/
def SignedString (L : Lib) (method : SigningMethod) (claims : Claims) (key : GoString) :
    Except GoString GoString :=
  let sstr := L.SigningString method.Alg claims
  .ok (sstr ++ lit "." ++ L.EncodeSegment (L.Sign method sstr key))

/-! ## The program (main.go lines 80-260) -/

/-- Go `initializeTestUsers` (lines 80-90).  The error of
`GenerateFromPassword` is discarded; the hash is then the empty string. -/
def initializeTestUsers (L : Lib) (users : Store) (salt : Nat) : Store :=
  let hashedPassword :=
    match L.GenerateFromPassword (lit "password123") DefaultCost salt with
    | .ok h => h
    | .error _ => []
  users.set (lit "user1")
    { ID := lit "user1", Username := lit "testuser", Email := lit "test@example.com",
      Password := hashedPassword }

/-- The claim set built by `generateJWT` (lines 239-250).  `clock i` is the
reading of the `i`-th call of `time.Now()`, in evaluation order: the one of
`expirationTime`, the one of `IssuedAt`, the one of `NotBefore`. -/
def generateJWTClaims (user : User) (clock : Nat → Int) : Claims :=
  let expirationTime := clock 0 + 24 * 3600
  { UserID := user.ID
    Username := user.Username
    ExpiresAt := some expirationTime
    IssuedAt := some (clock 1)
    NotBefore := some (clock 2)
    Issuer := lit "auth-service"
    Subject := user.ID
    Audience := []
    ID := [] }

/-- Go `generateJWT` (lines 238-254). -/
def generateJWT (L : Lib) (user : User) (clock : Nat → Int) : Except GoString GoString :=
  SignedString L .HS256 (generateJWTClaims user clock) jwtSecret

/-- Go `loginHandler` (lines 92-138).  `req` is the outcome of decoding the
request body (`none` when decoding fails). -/
def loginHandler (L : Lib) (users : Store) (req : Option LoginRequest) (clock : Nat → Int) :
    Store × Response :=
  match req with
  | Option.none => (users, httpError (lit "Invalid request body") StatusBadRequest)
  | some req =>
    -- Find user by username
    match users.find? (fun e => e.2.Username = req.Username) with
    | Option.none => (users, httpError (lit "Invalid credentials") StatusUnauthorized)
    | some (_, user) =>
      -- Check password
      match L.CompareHashAndPassword user.Password req.Password with
      | some _ => (users, httpError (lit "Invalid credentials") StatusUnauthorized)
      | Option.none =>
        -- Generate JWT token
        match generateJWT L user clock with
        | .error _ =>
          (users, httpError (lit "Failed to generate token") StatusInternalServerError)
        | .ok token =>
          -- Remove password from response
          let user := { user with Password := [] }
          (users, { status := StatusOK, body := .json { Token := token, User := user } })

/-- Go `registerHandler` (lines 140-193).  `req` is the outcome of decoding the
request body, `salt` the salt drawn by bcrypt, `userID` the value of
`generateUserID()`. -/
def registerHandler (L : Lib) (users : Store) (req : Option RegisterRequest) (salt : Nat)
    (userID : GoString) (clock : Nat → Int) : Store × Response :=
  match req with
  | Option.none => (users, httpError (lit "Invalid request body") StatusBadRequest)
  | some req =>
    -- Check if user already exists
    if users.any (fun e => e.2.Username = req.Username || e.2.Email = req.Email) then
      (users, httpError (lit "User already exists") StatusConflict)
    else
      -- Hash password
      match L.GenerateFromPassword req.Password DefaultCost salt with
      | .error _ => (users, httpError (lit "Failed to hash password") StatusInternalServerError)
      | .ok hashedPassword =>
        -- Create user
        let user : User :=
          { ID := userID, Username := req.Username, Email := req.Email,
            Password := hashedPassword }
        let users := users.set userID user
        -- Generate JWT token
        match generateJWT L user clock with
        | .error _ =>
          (users, httpError (lit "Failed to generate token") StatusInternalServerError)
        | .ok token =>
          -- Remove password from response
          let user := { user with Password := [] }
          (users, { status := StatusCreated, body := .json { Token := token, User := user } })

/-- The key function handed to `jwt.ParseWithClaims` (lines 211-216). -/
def keyFunc (token : Token) : Except GoString GoString :=
  if token.Method.isHMAC then .ok jwtSecret
  else .error (lit "unexpected signing method: " ++ token.HeaderAlg)

/-- Lines 210-235 of `validateTokenHandler`: what the handler does with the
token string once it has been cut out of the header. -/
def validateTokenString (L : Lib) (users : Store) (now : Int) (tokenString : GoString) :
    Response :=
  -- Parse and validate token
  match ParseWithClaims L tokenString keyFunc now with
  | .error _ => httpError (lit "Invalid token") StatusUnauthorized
  | .ok token =>
    if token.Valid then
      -- Check if user still exists
      match users.get token.Claims.UserID with
      | Option.none => httpError (lit "User not found") StatusUnauthorized
      | some _ => { status := StatusOK, body := .text (lit "valid") }
    else httpError (lit "Invalid token") StatusUnauthorized

/-- Go `validateTokenHandler` (lines 195-236).  `authHeader` is the value of
the `Authorization` header (empty when the header is absent), `now` the clock
reading taken by the claims validator.  The handler does not write `users`. -/
def validateTokenHandler (L : Lib) (users : Store) (now : Int) (authHeader : GoString) :
    Except Panic Response :=
  if authHeader = [] then
    .ok (httpError (lit "No authorization header") StatusUnauthorized)
  -- Extract token from "Bearer <token>"
  else if authHeader.length < 7 then
    .ok (httpError (lit "Invalid authorization header format") StatusUnauthorized)
  else
    match sliceTo authHeader 7 with
    | .error p => .error p
    | .ok head =>
      if head ≠ lit "Bearer " then
        .ok (httpError (lit "Invalid authorization header format") StatusUnauthorized)
      else
        match sliceFrom authHeader 7 with
        | .error p => .error p
        | .ok tokenString => .ok (validateTokenString L users now tokenString)

/-! ## Sequential executions -/

/-- One request served by the process, with everything the handler draws from
its environment. -/
inductive Request where
  | login (req : Option LoginRequest) (clock : Nat → Int)
  | register (req : Option RegisterRequest) (salt : Nat) (userID : GoString) (clock : Nat → Int)
  | validate (authHeader : GoString) (now : Int)

/-- The `users` map after a request has been served. -/
def serve (L : Lib) (users : Store) : Request → Store
  | .login req clock => (loginHandler L users req clock).1
  | .register req salt userID clock => (registerHandler L users req salt userID clock).1
  | .validate _ _ => users

/-- The states of `users` that the process can be in: `main` runs
`initializeTestUsers` on the empty map, then requests are served one after the
other.  Go does not fix the order in which `range` visits a map, so a
reachable map may be met in any order of its pairs. -/
inductive Reachable (L : Lib) : Store → Prop where
  | init (salt : Nat) : Reachable L (initializeTestUsers L [] salt)
  | step {users : Store} (r : Request) : Reachable L users → Reachable L (serve L users r)
  | reorder {users users' : Store} : Reachable L users → users.Perm users' → Reachable L users'

/-- Two pairs of the `users` map that differ in key, username and email. -/
def Distinct (a b : GoString × User) : Prop :=
  a.1 ≠ b.1 ∧ a.2.Username ≠ b.2.Username ∧ a.2.Email ≠ b.2.Email

/-- The string `generateJWT` returns for a claim set: signing string, a dot,
the encoded HS256 signature under `jwtSecret`. -/
def issuedToken (L : Lib) (c : Claims) : GoString :=
  L.SigningString (lit "HS256") c ++ lit "." ++
    L.EncodeSegment (L.Sign .HS256 (L.SigningString (lit "HS256") c) jwtSecret)

/-! ## Registrations one after the other and overlapping

`net/http` serves every request on a goroutine of its own, and `users` is read
and written without a lock.  A `registerHandler` call touches the map twice:
the loop of lines 148-153 reads it, the assignment of line 173 writes it.
Between the two, other calls can run. -/

/-- The decoded request of one `registerHandler` call and what the call draws
from its environment. -/
structure RegisterCall where
  req : RegisterRequest
  salt : Nat
  userID : GoString
  clock : Nat → Int

/-- Lines 147-153 of `registerHandler`: the loop over `users`; `true` when an
identity with the requested username or email is met. -/
def registerExists (users : Store) (req : RegisterRequest) : Bool :=
  users.any (fun e => e.2.Username = req.Username || e.2.Email = req.Email)

/-- Lines 155-192 of `registerHandler`: what a call does once its loop has met
nothing, on the map as it is at that moment. -/
def registerStore (L : Lib) (users : Store) (c : RegisterCall) : Store × Response :=
  -- Hash password
  match L.GenerateFromPassword c.req.Password DefaultCost c.salt with
  | .error _ => (users, httpError (lit "Failed to hash password") StatusInternalServerError)
  | .ok hashedPassword =>
    -- Create user
    let user : User :=
      { ID := c.userID, Username := c.req.Username, Email := c.req.Email,
        Password := hashedPassword }
    let users := users.set c.userID user
    -- Generate JWT token
    match generateJWT L user c.clock with
    | .error _ =>
      (users, httpError (lit "Failed to generate token") StatusInternalServerError)
    | .ok token =>
      -- Remove password from response
      let user := { user with Password := [] }
      (users, { status := StatusCreated, body := .json { Token := token, User := user } })

/-- How far a `registerHandler` call has got: before its loop, past its loop
with nothing met, or answered. -/
inductive Progress where
  | start
  | passed
  | answered (r : Response)
deriving DecidableEq, Repr

/-- The next access of a call to the map: the loop, or the rest of the
handler. -/
def stepCall (L : Lib) (users : Store) (c : RegisterCall) : Progress → Store × Progress
  | .start =>
    if registerExists users c.req then
      (users, .answered (httpError (lit "User already exists") StatusConflict))
    else (users, .passed)
  | .passed => ((registerStore L users c).1, .answered (registerStore L users c).2)
  | .answered r => (users, .answered r)

/-- The calls `calls` run on goroutines of their own; `schedule` lists, in
order, which call makes its next access to the map. -/
def runSchedule (L : Lib) (calls : List RegisterCall) :
    Store → List Progress → List Nat → Store × List Progress
  | users, progress, [] => (users, progress)
  | users, progress, i :: rest =>
    match calls[i]?, progress[i]? with
    | some c, some pr =>
      runSchedule L calls (stepCall L users c pr).1 (progress.set i (stepCall L users c pr).2) rest
    | _, _ => runSchedule L calls users progress rest

/-- The calls `calls` served one after the other, each `registerHandler` call
running to its end before the next starts: the map left and the answers. -/
def serveRegistrations (L : Lib) : Store → List RegisterCall → Store × List Response
  | users, [] => (users, [])
  | users, c :: rest =>
    ((serveRegistrations L (registerHandler L users (some c.req) c.salt c.userID c.clock).1 rest).1,
     (registerHandler L users (some c.req) c.salt c.userID c.clock).2 ::
       (serveRegistrations L (registerHandler L users (some c.req) c.salt c.userID c.clock).1
         rest).2)

/-- The number of answers with status 201. -/
def created (answers : List Response) : Nat :=
  answers.countP (fun r => r.status = StatusCreated)

/-- The status of a call that has answered. -/
def Progress.status : Progress → Option Nat
  | .answered r => some r.status
  | _ => Option.none

/-! ## A concrete library instance

The handlers are evaluated on concrete requests with this small instance of
`Lib`.  Its wire format is `alg.user_id.signature` (cut at the first two dots), its MAC of a text under a
key is the method name followed by the key and the text, and its password hash
is a salt byte followed by the password. -/

/-- Go `strings.Cut(s, ".")`: the bytes before and after the first dot (byte 46). -/
def cutDot : GoString → Option (GoString × GoString)
  | [] => Option.none
  | c :: rest =>
    if c = 46 then some ([], rest)
    else
      match cutDot rest with
      | Option.none => Option.none
      | some (before, after) => some (c :: before, after)

/-- A concrete instance of `Lib`. -/
def demoLib : Lib where
  GenerateFromPassword := fun password _ salt =>
    if 72 < password.length then .error .passwordTooLong
    else .ok (salt.toUInt8 :: password)
  CompareHashAndPassword := fun hash password =>
    match hash with
    | [] => some .hashTooShort
    | _ :: rest => if rest = password then Option.none else some .mismatchedHashAndPassword
  decodeSegments := fun t =>
    match cutDot t with
    | Option.none => Option.none
    | some (alg, rest) =>
      match cutDot rest with
      | Option.none => Option.none
      | some (uid, sig) =>
        some { headerAlg := some alg
               claims := { UserID := uid, Username := [], Issuer := [], Subject := uid,
                           Audience := [], ExpiresAt := Option.none, NotBefore := Option.none,
                           IssuedAt := Option.none, ID := [] }
               text := alg ++ lit "." ++ uid
               sigSegment := sig }
  DecodeSegment := fun seg => some seg
  EncodeSegment := fun sig => sig
  SigningString := fun alg c => alg ++ lit "." ++ c.UserID
  Sign := fun m text key => m.Alg ++ key ++ text
  Verify := fun m text sig key => m.isHMAC && decide (sig = m.Alg ++ key ++ text)

/-- An HS384 token for the seeded user, signed with the deployment secret. -/
def demoTokenHS384 : GoString :=
  lit "HS384.user1." ++ demoLib.Sign .HS384 (lit "HS384.user1") jwtSecret

/-- Two registrations of the username "racer". -/
def demoRacers : List RegisterCall :=
  [ { req := ⟨lit "racer", lit "r1@x.com", lit "pw1"⟩, salt := 1, userID := lit "id1",
      clock := fun _ => 5 },
    { req := ⟨lit "racer", lit "r2@x.com", lit "pw2"⟩, salt := 2, userID := lit "id2",
      clock := fun _ => 5 } ]

/-! ## Lemmas on the `users` map -/

theorem Store.mem_set_self (m : Store) (k : GoString) (v : User) : (k, v) ∈ m.set k v := by
  induction m with
  | nil => simp [Store.set]
  | cons e rest ih =>
    unfold Store.set
    by_cases h : e.1 = k
    · simp [h]
    · simp [h, ih]

theorem Store.mem_of_mem_set {m : Store} {k : GoString} {v : User} {x : GoString × User}
    (hx : x ∈ m.set k v) : x = (k, v) ∨ x ∈ m := by
  induction m with
  | nil => simpa [Store.set] using hx
  | cons e rest ih =>
    unfold Store.set at hx
    by_cases h : e.1 = k
    · simp only [h, if_true, List.mem_cons] at hx
      rcases hx with hx | hx
      · exact Or.inl hx
      · exact Or.inr (List.mem_cons_of_mem _ hx)
    · simp only [h, if_false, List.mem_cons] at hx
      rcases hx with hx | hx
      · exact Or.inr (hx ▸ List.mem_cons_self _ _)
      · rcases ih hx with h1 | h1
        · exact Or.inl h1
        · exact Or.inr (List.mem_cons_of_mem _ h1)

theorem Store.get_set_self (m : Store) (k : GoString) (v : User) :
    (m.set k v).get k = some v := by
  induction m with
  | nil => simp [Store.set, Store.get]
  | cons e rest ih =>
    unfold Store.set
    by_cases h : e.1 = k
    · simp [h, Store.get]
    · simp [h, Store.get, ih]

theorem Store.get_isSome_iff (m : Store) (k : GoString) :
    (∃ u, m.get k = some u) ↔ k ∈ m.map Prod.fst := by
  induction m with
  | nil => simp [Store.get]
  | cons e rest ih =>
    unfold Store.get
    by_cases h : e.1 = k
    · simp [h]
    · simp only [h, if_false, List.map_cons, List.mem_cons]
      rw [ih]
      constructor
      · exact Or.inr
      · rintro (h1 | h1)
        · exact absurd h1.symm h
        · exact h1

/-! ## Lemmas on the handlers -/

/-- What a registration that answers 201 has done. -/
theorem registerHandler_created {L : Lib} {users : Store} {req : RegisterRequest} {salt : Nat}
    {userID : GoString} {clock : Nat → Int}
    (h : (registerHandler L users (some req) salt userID clock).2.status = StatusCreated) :
    ∃ hashed, L.GenerateFromPassword req.Password DefaultCost salt = .ok hashed ∧
      users.any (fun e => e.2.Username = req.Username || e.2.Email = req.Email) = false ∧
      registerHandler L users (some req) salt userID clock =
        (users.set userID
            { ID := userID, Username := req.Username, Email := req.Email, Password := hashed },
         { status := StatusCreated,
           body := .json
             { Token := issuedToken L
                 (generateJWTClaims { ID := userID, Username := req.Username, Email := req.Email,
                                      Password := hashed } clock)
               User := { ID := userID, Username := req.Username, Email := req.Email,
                         Password := [] } } }) := by
  unfold registerHandler at h ⊢
  cases hany : users.any (fun e => e.2.Username = req.Username || e.2.Email = req.Email) with
  | true =>
    simp [hany, httpError, StatusConflict, StatusCreated] at h
  | false =>
    cases hgen : L.GenerateFromPassword req.Password DefaultCost salt with
    | error e =>
      simp [hany, hgen, httpError, StatusInternalServerError, StatusCreated] at h
    | ok hashed =>
      refine ⟨hashed, rfl, rfl, ?_⟩
      simp [hany, hgen, generateJWT, SignedString, SigningMethod.Alg, issuedToken]

/-- Lines 147-153: the loop answers 409 as soon as a stored identity has the
requested username or email. -/
theorem registerHandler_conflict (L : Lib) (users : Store) (req : RegisterRequest) (salt : Nat)
    (userID : GoString) (clock : Nat → Int)
    (h : ∃ e ∈ users, e.2.Username = req.Username ∨ e.2.Email = req.Email) :
    registerHandler L users (some req) salt userID clock =
      (users, httpError (lit "User already exists") StatusConflict) := by
  have hany : users.any (fun e => e.2.Username = req.Username || e.2.Email = req.Email) = true := by
    obtain ⟨e, he, hcond⟩ := h
    rw [List.any_eq_true]
    exact ⟨e, he, by simpa using hcond⟩
  simp [registerHandler, hany]

theorem lit_bearer : lit "Bearer " = [66, 101, 97, 114, 101, 114, 32] := by decide

theorem bearer_prefix_iff (h : GoString) :
    lit "Bearer " <+: h ↔ 7 ≤ h.length ∧ h.take 7 = lit "Bearer " := by
  constructor
  · rintro ⟨t, rfl⟩
    constructor
    · simp [lit_bearer]
    · simp [lit_bearer]
  · rintro ⟨-, htake⟩
    exact ⟨h.drop 7, by rw [← htake, List.take_append_drop]⟩

/-- Lines 196-208: a header that starts with "Bearer " passes the format check
and the rest of it is handed on. -/
theorem validateTokenHandler_of_bearer (L : Lib) (users : Store) (now : Int) (h : GoString)
    (hp : lit "Bearer " <+: h) :
    validateTokenHandler L users now h = .ok (validateTokenString L users now (h.drop 7)) := by
  obtain ⟨hlen, htake⟩ := (bearer_prefix_iff h).1 hp
  have hne : h ≠ [] := by
    intro h0
    rw [h0] at hlen
    simp at hlen
  have hlt : ¬ h.length < 7 := by omega
  simp [validateTokenHandler, hne, hlt, sliceTo, sliceFrom, hlen, htake]

/-- Lines 196-206: a header that does not start with "Bearer " is answered 401
before the token parser is reached. -/
theorem validateTokenHandler_of_not_bearer (L : Lib) (users : Store) (now : Int) (h : GoString)
    (hp : ¬ lit "Bearer " <+: h) :
    validateTokenHandler L users now h =
      .ok (httpError (if h = [] then lit "No authorization header"
                      else lit "Invalid authorization header format") StatusUnauthorized) := by
  by_cases hne : h = []
  · simp [validateTokenHandler, hne]
  · by_cases hlt : h.length < 7
    · simp [validateTokenHandler, hne, hlt]
    · have hlen : 7 ≤ h.length := by omega
      have htake : h.take 7 ≠ lit "Bearer " := fun ht => hp ((bearer_prefix_iff h).2 ⟨hlen, ht⟩)
      simp [validateTokenHandler, hne, hlt, sliceTo, hlen, htake]

/-- A token that `ParseWithClaims` returns without error has `Valid` set. -/
theorem ParseWithClaims_valid {L : Lib} {t : GoString} {kf : Token → Except GoString GoString}
    {now : Int} {tok : Token} (h : ParseWithClaims L t kf now = .ok tok) : tok.Valid = true := by
  unfold ParseWithClaims at h
  split at h
  · simp at h
  · split at h
    · simp at h
    · split at h
      · simp at h
      · split at h
        · split at h
          · simp at h
          · simp only [Except.ok.injEq] at h
            rw [← h]
        · simp at h

theorem Distinct.symm {a b : GoString × User} (h : Distinct a b) : Distinct b a :=
  ⟨fun e => h.1 e.symm, fun e => h.2.1 e.symm, fun e => h.2.2 e.symm⟩

/-- Binding a key to a user whose username and email nobody else has keeps
the pairs of the map distinct. -/
theorem Store.set_pairwise {m : Store} {k : GoString} {v : User} (hm : m.Pairwise Distinct)
    (hv : ∀ e ∈ m, e.2.Username ≠ v.Username ∧ e.2.Email ≠ v.Email) :
    (m.set k v).Pairwise Distinct := by
  induction m with
  | nil => simp [Store.set]
  | cons e rest ih =>
    rw [List.pairwise_cons] at hm
    obtain ⟨hhead, htail⟩ := hm
    have hrest : ∀ x ∈ rest, x.2.Username ≠ v.Username ∧ x.2.Email ≠ v.Email :=
      fun x hx => hv x (List.mem_cons_of_mem _ hx)
    unfold Store.set
    by_cases h : e.1 = k
    · simp only [h, if_true, List.pairwise_cons]
      refine ⟨?_, htail⟩
      intro b hb
      have hb1 := hhead b hb
      have hb2 := hrest b hb
      exact ⟨fun hk => hb1.1 (h.trans hk), fun hu => hb2.1 hu.symm, fun he => hb2.2 he.symm⟩
    · simp only [h, if_false, List.pairwise_cons]
      refine ⟨?_, ih htail hrest⟩
      intro b hb
      rcases Store.mem_of_mem_set hb with hb | hb
      · subst hb
        exact ⟨h, (hv e (List.mem_cons_self _ _)).1, (hv e (List.mem_cons_self _ _)).2⟩
      · exact hhead b hb

/-- Every request leaves the pairs of the map distinct. -/
theorem serve_pairwise (L : Lib) {users : Store} (r : Request) (hm : users.Pairwise Distinct) :
    (serve L users r).Pairwise Distinct := by
  cases r with
  | login req clock =>
    simp only [serve, loginHandler]
    repeat' split
    all_goals exact hm
  | validate authHeader now => exact hm
  | register req salt userID clock =>
    simp only [serve]
    unfold registerHandler
    cases req with
    | none => exact hm
    | some req =>
      cases hany : users.any (fun e => e.2.Username = req.Username || e.2.Email = req.Email) with
      | true => simpa [hany] using hm
      | false =>
        cases hgen : L.GenerateFromPassword req.Password DefaultCost salt with
        | error e => simpa [hany, hgen] using hm
        | ok hashed =>
          have hfresh : ∀ e ∈ users, e.2.Username ≠ req.Username ∧ e.2.Email ≠ req.Email := by
            intro e he
            have := List.any_eq_false.1 hany e he
            simpa using this
          have hset := Store.set_pairwise (k := userID)
            (v := { ID := userID, Username := req.Username, Email := req.Email,
                    Password := hashed }) hm hfresh
          simpa [hany, hgen, generateJWT, SignedString] using hset

/-- The pairs of every reachable map are distinct in key, username and email. -/
theorem Reachable.pairwise {L : Lib} {users : Store} (h : Reachable L users) :
    users.Pairwise Distinct := by
  induction h with
  | init salt => simp [initializeTestUsers, Store.set]
  | step r _ ih => exact serve_pairwise L r ih
  | reorder _ hperm ih => exact (hperm.pairwise_iff (fun hxy => Distinct.symm hxy)).1 ih

theorem generateJWT_eq (L : Lib) (user : User) (clock : Nat → Int) :
    generateJWT L user clock = .ok (issuedToken L (generateJWTClaims user clock)) := rfl

/-- The methods that pass the type assertion of `keyFunc` are registered
under the names HS256, HS384 and HS512 only. -/
theorem GetSigningMethod_isHMAC {alg : GoString} {m : SigningMethod}
    (h : GetSigningMethod alg = some m) (hm : m.isHMAC = true) :
    alg = lit "HS256" ∨ alg = lit "HS384" ∨ alg = lit "HS512" := by
  by_cases h1 : alg = lit "HS256"
  · exact Or.inl h1
  by_cases h2 : alg = lit "HS384"
  · exact Or.inr (Or.inl h2)
  by_cases h3 : alg = lit "HS512"
  · exact Or.inr (Or.inr h3)
  exfalso
  unfold GetSigningMethod at h
  rw [if_neg h1, if_neg h2, if_neg h3] at h
  by_cases h4 : alg = lit "RS256"
  · rw [if_pos h4] at h
    cases h
    simp [SigningMethod.isHMAC] at hm
  rw [if_neg h4] at h
  clear h4
  by_cases h4 : alg = lit "RS384"
  · rw [if_pos h4] at h
    cases h
    simp [SigningMethod.isHMAC] at hm
  rw [if_neg h4] at h
  clear h4
  by_cases h4 : alg = lit "RS512"
  · rw [if_pos h4] at h
    cases h
    simp [SigningMethod.isHMAC] at hm
  rw [if_neg h4] at h
  clear h4
  by_cases h4 : alg = lit "PS256"
  · rw [if_pos h4] at h
    cases h
    simp [SigningMethod.isHMAC] at hm
  rw [if_neg h4] at h
  clear h4
  by_cases h4 : alg = lit "PS384"
  · rw [if_pos h4] at h
    cases h
    simp [SigningMethod.isHMAC] at hm
  rw [if_neg h4] at h
  clear h4
  by_cases h4 : alg = lit "PS512"
  · rw [if_pos h4] at h
    cases h
    simp [SigningMethod.isHMAC] at hm
  rw [if_neg h4] at h
  clear h4
  by_cases h4 : alg = lit "ES256"
  · rw [if_pos h4] at h
    cases h
    simp [SigningMethod.isHMAC] at hm
  rw [if_neg h4] at h
  clear h4
  by_cases h4 : alg = lit "ES384"
  · rw [if_pos h4] at h
    cases h
    simp [SigningMethod.isHMAC] at hm
  rw [if_neg h4] at h
  clear h4
  by_cases h4 : alg = lit "ES512"
  · rw [if_pos h4] at h
    cases h
    simp [SigningMethod.isHMAC] at hm
  rw [if_neg h4] at h
  clear h4
  by_cases h4 : alg = lit "EdDSA"
  · rw [if_pos h4] at h
    cases h
    simp [SigningMethod.isHMAC] at hm
  rw [if_neg h4] at h
  clear h4
  by_cases h4 : alg = lit "none"
  · rw [if_pos h4] at h
    cases h
    simp [SigningMethod.isHMAC] at hm
  rw [if_neg h4] at h
  clear h4
  cases h

/-- Lines 210-221: a token string whose header names no HMAC method does not
get through `jwt.ParseWithClaims`. -/
theorem ParseWithClaims_non_hmac (L : Lib) (now : Int) (t : GoString)
    (halg : ∀ d, L.decodeSegments t = some d →
      d.headerAlg ≠ some (lit "HS256") ∧ d.headerAlg ≠ some (lit "HS384") ∧
        d.headerAlg ≠ some (lit "HS512")) :
    ∃ e, ParseWithClaims L t keyFunc now = .error e := by
  cases hd : L.decodeSegments t with
  | none => exact ⟨.malformed, by simp [ParseWithClaims, ParseUnverified, hd]⟩
  | some d =>
    obtain ⟨h256, h384, h512⟩ := halg d hd
    cases ha : d.headerAlg with
    | none => exact ⟨.unverifiable, by simp [ParseWithClaims, ParseUnverified, hd, ha]⟩
    | some alg =>
      cases hm : GetSigningMethod alg with
      | none => exact ⟨.unverifiable, by simp [ParseWithClaims, ParseUnverified, hd, ha, hm]⟩
      | some m =>
        have hnot : m.isHMAC = false := by
          cases hb : m.isHMAC with
          | false => rfl
          | true =>
            rcases GetSigningMethod_isHMAC hm hb with h | h | h
            · exact absurd (by rw [ha, h]) h256
            · exact absurd (by rw [ha, h]) h384
            · exact absurd (by rw [ha, h]) h512
        cases hs : L.DecodeSegment d.sigSegment with
        | none => exact ⟨.malformed, by simp [ParseWithClaims, ParseUnverified, hd, ha, hm, hs]⟩
        | some sig =>
          exact ⟨.unverifiable,
            by simp [ParseWithClaims, ParseUnverified, hd, ha, hm, hs, keyFunc, hnot]⟩

/-- Lines 210-232 on a token of any HMAC method: when its signature verifies
under `jwtSecret` with that method, its dates are valid and its `user_id` is a
key of the store, the answer is 200 "valid", whatever the library is. -/
theorem validateTokenString_accepts_hmac (L : Lib) (users : Store) (now : Int) (t : GoString)
    (d : Segments) (alg sig : GoString) (m : SigningMethod) (u : User)
    (hd : L.decodeSegments t = some d) (ha : d.headerAlg = some alg)
    (hm : GetSigningMethod alg = some m) (hmac : m.isHMAC = true)
    (hs : L.DecodeSegment d.sigSegment = some sig)
    (hv : L.Verify m d.text sig jwtSecret = true)
    (ht : Validate d.claims now = .ok ())
    (hu : users.get d.claims.UserID = some u) :
    validateTokenString L users now t = { status := StatusOK, body := .text (lit "valid") } := by
  simp [validateTokenString, ParseWithClaims, ParseUnverified, hd, ha, hm, hs, keyFunc, hmac,
    hv, ht, hu]

/-- Lines 99-108 on a map in which exactly one identity, bound to `k`, has
the requested username: the loop finds that identity, in whatever order the
map is visited. -/
theorem find_username_after_set {users users' : Store} {k : GoString} {v : User}
    (hfresh : ∀ x ∈ users, x.2.Username ≠ v.Username)
    (hperm : (users.set k v).Perm users') :
    users'.find? (fun e => e.2.Username = v.Username) = some (k, v) := by
  cases hfind : users'.find? (fun e => e.2.Username = v.Username) with
  | none =>
    rw [List.find?_eq_none] at hfind
    have hmem : (k, v) ∈ users' := hperm.subset (Store.mem_set_self users k v)
    have := hfind (k, v) hmem
    simp at this
  | some x =>
    have hx : x ∈ users.set k v := hperm.symm.subset (List.mem_of_find?_eq_some hfind)
    have hname : x.2.Username = v.Username := by
      simpa using List.find?_some hfind
    rcases Store.mem_of_mem_set hx with hx | hx
    · rw [hx]
    · exact absurd hname (hfresh x hx)

/-- Lines 239-250 with the three readings of the clock kept apart: the dates
of the claim set are the readings, and the expiry is later than the issue time
as long as the second reading is less than 24h after the first. -/
theorem generateJWTClaims_dates (user : User) (clock : Nat → Int) :
    (generateJWTClaims user clock).ExpiresAt = some (clock 0 + 24 * 3600) ∧
    (generateJWTClaims user clock).IssuedAt = some (clock 1) ∧
    (generateJWTClaims user clock).NotBefore = some (clock 2) ∧
    (clock 1 < clock 0 + 24 * 3600 →
      ∀ iat exp, (generateJWTClaims user clock).IssuedAt = some iat →
        (generateJWTClaims user clock).ExpiresAt = some exp → iat < exp) := by
  refine ⟨rfl, rfl, rfl, ?_⟩
  intro hlt iat exp h1 h2
  simp only [generateJWTClaims, Option.some.injEq] at h1 h2
  omega

/-- The two accesses of a call, made back to back, are `registerHandler`. -/
theorem registerHandler_eq_steps (L : Lib) (users : Store) (c : RegisterCall) :
    registerHandler L users (some c.req) c.salt c.userID c.clock =
      if registerExists users c.req then
        (users, httpError (lit "User already exists") StatusConflict)
      else registerStore L users c := rfl

theorem stepCall_twice (L : Lib) (users : Store) (c : RegisterCall) :
    stepCall L (stepCall L users c .start).1 c (stepCall L users c .start).2 =
      ((registerHandler L users (some c.req) c.salt c.userID c.clock).1,
       .answered (registerHandler L users (some c.req) c.salt c.userID c.clock).2) := by
  rw [registerHandler_eq_steps]
  cases h : registerExists users c.req <;> simp [stepCall, h]

/-- A registration that is not answered 201 has not written the map. -/
theorem registerHandler_store_of_not_created {L : Lib} {users : Store}
    {req : Option RegisterRequest} {salt : Nat} {userID : GoString} {clock : Nat → Int}
    (h : (registerHandler L users req salt userID clock).2.status ≠ StatusCreated) :
    (registerHandler L users req salt userID clock).1 = users := by
  unfold registerHandler at h ⊢
  cases req with
  | none => rfl
  | some req =>
    cases hany : users.any (fun e => e.2.Username = req.Username || e.2.Email = req.Email) with
    | true => simp [hany]
    | false =>
      cases hgen : L.GenerateFromPassword req.Password DefaultCost salt with
      | error e => simp [hany, hgen]
      | ok hashed => simp [hany, hgen, generateJWT, SignedString] at h

/-- Once the username is stored, registrations of it served one after the
other are all refused and leave the map as it is. -/
theorem serveRegistrations_of_present (L : Lib) (u : GoString) (calls : List RegisterCall)
    (users : Store) (hpresent : ∃ e ∈ users, e.2.Username = u)
    (hsame : ∀ c ∈ calls, c.req.Username = u) :
    (serveRegistrations L users calls).1 = users ∧
      created (serveRegistrations L users calls).2 = 0 := by
  induction calls with
  | nil => exact ⟨rfl, rfl⟩
  | cons c rest ih =>
    have hc : c.req.Username = u := hsame c (List.mem_cons_self _ _)
    have hconf := registerHandler_conflict L users c.req c.salt c.userID c.clock
      (by
        obtain ⟨e, he, hu⟩ := hpresent
        exact ⟨e, he, Or.inl (hu.trans hc.symm)⟩)
    have ih' := ih (fun x hx => hsame x (List.mem_cons_of_mem _ hx))
    simp only [serveRegistrations, hconf, created, List.countP_cons] at ih' ⊢
    refine ⟨ih'.1, ?_⟩
    have h0 := ih'.2
    simp only [created] at h0
    rw [h0]
    simp [httpError, StatusConflict, StatusCreated]

/-- Registrations of one username served one after the other: at most one is
answered 201. -/
theorem serveRegistrations_created_le_one (L : Lib) (u : GoString) (calls : List RegisterCall)
    (users : Store) (hsame : ∀ c ∈ calls, c.req.Username = u) :
    created (serveRegistrations L users calls).2 ≤ 1 := by
  induction calls generalizing users with
  | nil => simp [serveRegistrations, created]
  | cons c rest ih =>
    have hrest : ∀ x ∈ rest, x.req.Username = u := fun x hx => hsame x (List.mem_cons_of_mem _ hx)
    have hc : c.req.Username = u := hsame c (List.mem_cons_self _ _)
    simp only [serveRegistrations, created, List.countP_cons]
    by_cases hst : (registerHandler L users (some c.req) c.salt c.userID c.clock).2.status =
        StatusCreated
    · obtain ⟨hashed, -, -, heq⟩ := registerHandler_created hst
      have hpresent : ∃ e ∈ (registerHandler L users (some c.req) c.salt c.userID c.clock).1,
          e.2.Username = u := by
        rw [heq]
        exact ⟨_, Store.mem_set_self users c.userID _, hc⟩
      have h0 := (serveRegistrations_of_present L u rest _ hpresent hrest).2
      simp only [created] at h0
      rw [h0]
      simp [hst]
    · have hstore := registerHandler_store_of_not_created hst
      have ih' := ih users hrest
      simp only [created] at ih'
      rw [hstore]
      simpa [hst] using ih'

/-- The map left by registrations served one after the other is reachable when
the map they start from is. -/
theorem serveRegistrations_reachable (L : Lib) (calls : List RegisterCall) (users : Store)
    (h : Reachable L users) : Reachable L (serveRegistrations L users calls).1 := by
  induction calls generalizing users with
  | nil => exact h
  | cons c rest ih =>
    exact ih _ (Reachable.step (.register (some c.req) c.salt c.userID c.clock) h)

/-- In a map whose pairs are distinct, at most one identity has a given
username. -/
theorem filter_username_length_le_one {users : Store} (h : users.Pairwise Distinct)
    (u : GoString) : (users.filter (fun e => e.2.Username = u)).length ≤ 1 := by
  induction users with
  | nil => simp
  | cons e rest ih =>
    rw [List.pairwise_cons] at h
    obtain ⟨hhead, htail⟩ := h
    by_cases he : e.2.Username = u
    · have hnone : rest.filter (fun x => x.2.Username = u) = [] := by
        rw [List.filter_eq_nil_iff]
        intro x hx
        have := (hhead x hx).2.1
        simpa using fun hxu => this (he.trans hxu.symm)
      simp [List.filter_cons, he, hnone]
    · have := ih htail
      simpa [List.filter_cons, he] using this

/-! ## The claims -/

/-- C2: for every user store and every decoded register request, if some stored
identity has exactly the same username or exactly the same email, then
`registerHandler` answers 409 "User already exists", the body carries no
token, and the store is returned unchanged; in particular, after a
registration of a username that was answered 201, a second registration of the
same username (whatever its email, password and generated id) is answered 409
and leaves the store as the first one left it. -/
theorem registerHandler_already_exists (L : Lib) (users : Store) (req : RegisterRequest)
    (salt : Nat) (userID : GoString) (clock : Nat → Int) :
    ((∃ e ∈ users, e.2.Username = req.Username ∨ e.2.Email = req.Email) →
      (registerHandler L users (some req) salt userID clock).2 =
          httpError (lit "User already exists") StatusConflict ∧
        (registerHandler L users (some req) salt userID clock).2.status = 409 ∧
        (∀ r, (registerHandler L users (some req) salt userID clock).2.body ≠ .json r) ∧
        (registerHandler L users (some req) salt userID clock).1 = users) ∧
    ((registerHandler L users (some req) salt userID clock).2.status = StatusCreated →
      ∀ (req2 : RegisterRequest) (salt2 : Nat) (userID2 : GoString) (clock2 : Nat → Int),
        req2.Username = req.Username →
        registerHandler L (registerHandler L users (some req) salt userID clock).1 (some req2)
            salt2 userID2 clock2 =
          ((registerHandler L users (some req) salt userID clock).1,
           httpError (lit "User already exists") StatusConflict)) := by
  constructor
  · intro h
    rw [registerHandler_conflict L users req salt userID clock h]
    refine ⟨rfl, rfl, ?_, rfl⟩
    intro r
    simp [httpError]
  · intro h req2 salt2 userID2 clock2 hname
    obtain ⟨hashed, -, -, heq⟩ := registerHandler_created h
    rw [heq]
    apply registerHandler_conflict
    exact ⟨_, Store.mem_set_self users userID _, Or.inl hname.symm⟩

/-- C2 at a concrete input: the seeded store already holds "testuser", and
"alice" registered twice in a row. -/
theorem registerHandler_already_exists_witness :
    (∃ e ∈ initializeTestUsers demoLib [] 0,
        e.2.Username = lit "testuser" ∨ e.2.Email = lit "other@example.com") ∧
    (registerHandler demoLib (initializeTestUsers demoLib [] 0)
        (some ⟨lit "testuser", lit "other@example.com", lit "pw"⟩) 1 (lit "0a") (fun _ => 5)).1 =
      initializeTestUsers demoLib [] 0 ∧
    (registerHandler demoLib (initializeTestUsers demoLib [] 0)
        (some ⟨lit "alice", lit "a@x.com", lit "secret1"⟩) 1 (lit "0a") (fun _ => 5)).2.status =
      StatusCreated ∧
    (registerHandler demoLib
        (registerHandler demoLib (initializeTestUsers demoLib [] 0)
          (some ⟨lit "alice", lit "a@x.com", lit "secret1"⟩) 1 (lit "0a") (fun _ => 5)).1
        (some ⟨lit "alice", lit "b@x.com", lit "secret2"⟩) 2 (lit "0b") (fun _ => 6)).2 =
      httpError (lit "User already exists") StatusConflict := by
  have hex : ∃ e ∈ initializeTestUsers demoLib [] 0,
      e.2.Username = lit "testuser" ∨ e.2.Email = lit "other@example.com" :=
    ⟨(lit "user1", ⟨lit "user1", lit "testuser", lit "test@example.com",
        (0 : UInt8) :: lit "password123"⟩), by decide, Or.inl rfl⟩
  have hcreated : (registerHandler demoLib (initializeTestUsers demoLib [] 0)
      (some ⟨lit "alice", lit "a@x.com", lit "secret1"⟩) 1 (lit "0a")
      (fun _ => 5)).2.status = StatusCreated := by decide
  refine ⟨hex, ?_, hcreated, ?_⟩
  · exact ((registerHandler_already_exists demoLib _ ⟨lit "testuser", lit "other@example.com",
      lit "pw"⟩ 1 (lit "0a") (fun _ => 5)).1 hex).2.2.2
  · have h2 := (registerHandler_already_exists demoLib _ ⟨lit "alice", lit "a@x.com",
      lit "secret1"⟩ 1 (lit "0a") (fun _ => 5)).2 hcreated
      ⟨lit "alice", lit "b@x.com", lit "secret2"⟩ 2 (lit "0b") (fun _ => 6) rfl
    rw [h2]

/-- C5: for every user store and every decoded login request, the answer given
when no stored identity has the requested username and the answer given when
the identity found has a stored hash against which the password does not
verify (whatever error bcrypt reports, a malformed hash included) are the same
response, 401 "Invalid credentials"; in both cases the body carries no token
and the store is returned unchanged. -/
theorem loginHandler_same_failure (L : Lib) (users₁ users₂ : Store) (req₁ req₂ : LoginRequest)
    (clock₁ clock₂ : Nat → Int) (k : GoString) (user : User) (err : BcryptError)
    (hmiss : ∀ e ∈ users₁, e.2.Username ≠ req₁.Username)
    (hfound : users₂.find? (fun e => e.2.Username = req₂.Username) = some (k, user))
    (hverify : L.CompareHashAndPassword user.Password req₂.Password = some err) :
    (loginHandler L users₁ (some req₁) clock₁).2 = (loginHandler L users₂ (some req₂) clock₂).2 ∧
    (loginHandler L users₁ (some req₁) clock₁).2 =
      httpError (lit "Invalid credentials") StatusUnauthorized ∧
    (loginHandler L users₁ (some req₁) clock₁).2.status = 401 ∧
    (∀ r, (loginHandler L users₁ (some req₁) clock₁).2.body ≠ .json r) ∧
    (∀ r, (loginHandler L users₂ (some req₂) clock₂).2.body ≠ .json r) ∧
    (loginHandler L users₁ (some req₁) clock₁).1 = users₁ ∧
    (loginHandler L users₂ (some req₂) clock₂).1 = users₂ := by
  have hnone : users₁.find? (fun e => e.2.Username = req₁.Username) = Option.none := by
    rw [List.find?_eq_none]
    intro e he
    simpa using hmiss e he
  have h1 : loginHandler L users₁ (some req₁) clock₁ =
      (users₁, httpError (lit "Invalid credentials") StatusUnauthorized) := by
    simp [loginHandler, hnone]
  have h2 : loginHandler L users₂ (some req₂) clock₂ =
      (users₂, httpError (lit "Invalid credentials") StatusUnauthorized) := by
    simp [loginHandler, hfound, hverify]
  rw [h1, h2]
  refine ⟨rfl, rfl, rfl, ?_, ?_, rfl, rfl⟩ <;> intro r <;> simp [httpError]

/-- C5 at a concrete input: an unknown username, a wrong password for the
seeded user. -/
theorem loginHandler_same_failure_witness :
    (loginHandler demoLib (initializeTestUsers demoLib [] 0)
        (some ⟨lit "nobody", lit "password123"⟩) (fun _ => 7)).2 =
      (loginHandler demoLib (initializeTestUsers demoLib [] 0)
        (some ⟨lit "testuser", lit "wrong"⟩) (fun _ => 8)).2 :=
  (loginHandler_same_failure demoLib (initializeTestUsers demoLib [] 0)
    (initializeTestUsers demoLib [] 0) ⟨lit "nobody", lit "password123"⟩
    ⟨lit "testuser", lit "wrong"⟩ (fun _ => 7) (fun _ => 8) (lit "user1")
    ⟨lit "user1", lit "testuser", lit "test@example.com", (0 : UInt8) :: lit "password123"⟩
    .mismatchedHashAndPassword (by decide) (by decide) (by decide)).1

/-- C4: for every user and every clock reading `now` (all three calls of
`time.Now()` in `generateJWT` returning it), the claim set that `generateJWT`
signs with HS256 under the deployment secret has issued_at = now,
not_before = now, expires_at = now + 24h, subject = user id, user_id = user id,
username = the user's username and issuer = "auth-service"; its expires_at is
later than its issued_at. -/
theorem generateJWT_claims (L : Lib) (user : User) (now : Int) :
    (generateJWTClaims user (fun _ => now)).IssuedAt = some now ∧
    (generateJWTClaims user (fun _ => now)).NotBefore = some now ∧
    (generateJWTClaims user (fun _ => now)).ExpiresAt = some (now + 24 * 3600) ∧
    (generateJWTClaims user (fun _ => now)).Subject = user.ID ∧
    (generateJWTClaims user (fun _ => now)).UserID = user.ID ∧
    (generateJWTClaims user (fun _ => now)).Username = user.Username ∧
    (generateJWTClaims user (fun _ => now)).Issuer = lit "auth-service" ∧
    (∀ iat exp, (generateJWTClaims user (fun _ => now)).IssuedAt = some iat →
      (generateJWTClaims user (fun _ => now)).ExpiresAt = some exp → iat < exp) ∧
    generateJWT L user (fun _ => now) =
      .ok (issuedToken L (generateJWTClaims user (fun _ => now))) := by
  refine ⟨rfl, rfl, rfl, rfl, rfl, rfl, rfl, ?_, rfl⟩
  intro iat exp h1 h2
  simp only [generateJWTClaims, Option.some.injEq] at h1 h2
  omega

/-- C8: for any store, any request and any library behaviour.  A login whose
username loop finds the stored identity `stored` and whose password verifies
is answered 200 with an `AuthResponse` whose user object has exactly the id,
username and email of `stored` and an empty password field; a registration
that finds no conflict and whose password hashes is answered 201 with an
`AuthResponse` whose user object has exactly the id, username and email of
the identity it has just stored under the generated id, and an empty password
field.  Conversely every `AuthResponse` either handler gives arises in that
way: its user object is the identity looked up (login) or stored (register),
with the password field emptied. -/
theorem authResponse_user_without_password (L : Lib) (users : Store) :
    (∀ (req : LoginRequest) (clock : Nat → Int) (k : GoString) (stored : User),
      users.find? (fun e => e.2.Username = req.Username) = some (k, stored) →
      L.CompareHashAndPassword stored.Password req.Password = Option.none →
      (k, stored) ∈ users ∧ stored.Username = req.Username ∧
      loginHandler L users (some req) clock =
        (users,
         { status := 200,
           body := .json ⟨issuedToken L (generateJWTClaims stored clock),
                          ⟨stored.ID, stored.Username, stored.Email, []⟩⟩ })) ∧
    (∀ (req : Option LoginRequest) (clock : Nat → Int) (st : Nat) (tok : GoString) (usr : User),
      (loginHandler L users req clock).2 = { status := st, body := .json ⟨tok, usr⟩ } →
      ∃ (r : LoginRequest) (k : GoString) (stored : User),
        req = some r ∧
        users.find? (fun e => e.2.Username = r.Username) = some (k, stored) ∧
        (k, stored) ∈ users ∧ stored.Username = r.Username ∧
        L.CompareHashAndPassword stored.Password r.Password = Option.none ∧
        st = 200 ∧ usr = ⟨stored.ID, stored.Username, stored.Email, []⟩) ∧
    (∀ (req : RegisterRequest) (salt : Nat) (userID : GoString) (clock : Nat → Int)
      (hashed : GoString),
      (∀ e ∈ users, e.2.Username ≠ req.Username ∧ e.2.Email ≠ req.Email) →
      L.GenerateFromPassword req.Password DefaultCost salt = .ok hashed →
      (registerHandler L users (some req) salt userID clock).1.get userID =
        some ⟨userID, req.Username, req.Email, hashed⟩ ∧
      (registerHandler L users (some req) salt userID clock).2 =
        { status := 201,
          body := .json ⟨issuedToken L
                           (generateJWTClaims ⟨userID, req.Username, req.Email, hashed⟩ clock),
                         ⟨userID, req.Username, req.Email, []⟩⟩ }) ∧
    (∀ (req : Option RegisterRequest) (salt : Nat) (userID : GoString) (clock : Nat → Int)
      (st : Nat) (tok : GoString) (usr : User),
      (registerHandler L users req salt userID clock).2 = { status := st, body := .json ⟨tok, usr⟩ } →
      ∃ (r : RegisterRequest) (stored : User),
        req = some r ∧
        (registerHandler L users req salt userID clock).1.get userID = some stored ∧
        stored.ID = userID ∧ stored.Username = r.Username ∧ stored.Email = r.Email ∧
        st = 201 ∧ usr = ⟨stored.ID, stored.Username, stored.Email, []⟩) := by
  refine ⟨?_, ?_, ?_, ?_⟩
  · intro req clock k stored hfind hcmp
    refine ⟨List.mem_of_find?_eq_some hfind, by simpa using List.find?_some hfind, ?_⟩
    simp [loginHandler, hfind, hcmp, generateJWT_eq, StatusOK]
  · intro req clock st tok usr h
    unfold loginHandler at h
    cases req with
    | none => simp [httpError] at h
    | some req =>
      cases hfind : users.find? (fun e => e.2.Username = req.Username) with
      | none => simp [hfind, httpError] at h
      | some e =>
        obtain ⟨k, user⟩ := e
        cases hcmp : L.CompareHashAndPassword user.Password req.Password with
        | some err => simp [hfind, hcmp, httpError] at h
        | none =>
          simp only [hfind, hcmp, generateJWT, SignedString, Response.mk.injEq, Body.json.injEq,
            AuthResponse.mk.injEq] at h
          obtain ⟨hst, -, husr⟩ := h
          refine ⟨req, k, user, rfl, hfind, List.mem_of_find?_eq_some hfind,
            by simpa using List.find?_some hfind, hcmp, hst.symm, husr.symm⟩
  · intro req salt userID clock hashed hfresh hhash
    have hany : users.any (fun e => e.2.Username = req.Username || e.2.Email = req.Email) =
        false := by
      rw [List.any_eq_false]
      intro x hx
      have := hfresh x hx
      simp [this.1, this.2]
    have hreg : registerHandler L users (some req) salt userID clock =
        (users.set userID ⟨userID, req.Username, req.Email, hashed⟩,
         { status := 201,
           body := .json ⟨issuedToken L
                            (generateJWTClaims ⟨userID, req.Username, req.Email, hashed⟩ clock),
                          ⟨userID, req.Username, req.Email, []⟩⟩ }) := by
      simp [registerHandler, hany, hhash, generateJWT_eq, StatusCreated]
    rw [hreg]
    exact ⟨Store.get_set_self users userID _, rfl⟩
  · intro req salt userID clock st tok usr h
    cases req with
    | none => simp [registerHandler, httpError] at h
    | some req =>
      have hst : (registerHandler L users (some req) salt userID clock).2.status =
          StatusCreated := by
        unfold registerHandler at h ⊢
        cases hany : users.any (fun e => e.2.Username = req.Username || e.2.Email = req.Email) with
        | true => simp [hany, httpError] at h
        | false =>
          cases hgen : L.GenerateFromPassword req.Password DefaultCost salt with
          | error e => simp [hany, hgen, httpError] at h
          | ok hashed => simp [hany, hgen, generateJWT, SignedString]
      obtain ⟨hashed, -, -, heq⟩ := registerHandler_created hst
      rw [heq] at h ⊢
      simp only [Response.mk.injEq, Body.json.injEq, AuthResponse.mk.injEq] at h
      obtain ⟨hst', -, husr⟩ := h
      exact ⟨req, ⟨userID, req.Username, req.Email, hashed⟩, rfl,
        Store.get_set_self users userID _, rfl, rfl, rfl, hst'.symm, husr.symm⟩

/-- C8 at concrete inputs: the login of the seeded user with its password, and
the registration of "alice" on the seeded store. -/
theorem authResponse_user_without_password_witness :
    loginHandler demoLib (initializeTestUsers demoLib [] 0)
        (some ⟨lit "testuser", lit "password123"⟩) (fun _ => 9) =
      (initializeTestUsers demoLib [] 0,
       { status := 200,
         body := .json ⟨issuedToken demoLib (generateJWTClaims
                          ⟨lit "user1", lit "testuser", lit "test@example.com",
                            (0 : UInt8) :: lit "password123"⟩ (fun _ => 9)),
                        ⟨lit "user1", lit "testuser", lit "test@example.com", []⟩⟩ }) ∧
    (registerHandler demoLib (initializeTestUsers demoLib [] 0)
        (some ⟨lit "alice", lit "a@x.com", lit "secret1"⟩) 1 (lit "0a") (fun _ => 5)).1.get
        (lit "0a") =
      some ⟨lit "0a", lit "alice", lit "a@x.com", (1 : UInt8) :: lit "secret1"⟩ ∧
    (registerHandler demoLib (initializeTestUsers demoLib [] 0)
        (some ⟨lit "alice", lit "a@x.com", lit "secret1"⟩) 1 (lit "0a") (fun _ => 5)).2 =
      { status := 201,
        body := .json ⟨issuedToken demoLib (generateJWTClaims
                         ⟨lit "0a", lit "alice", lit "a@x.com", (1 : UInt8) :: lit "secret1"⟩
                         (fun _ => 5)),
                       ⟨lit "0a", lit "alice", lit "a@x.com", []⟩⟩ } :=
  ⟨((authResponse_user_without_password demoLib (initializeTestUsers demoLib [] 0)).1
      ⟨lit "testuser", lit "password123"⟩ (fun _ => 9) (lit "user1")
      ⟨lit "user1", lit "testuser", lit "test@example.com", (0 : UInt8) :: lit "password123"⟩
      (by decide) (by decide)).2.2,
   (authResponse_user_without_password demoLib (initializeTestUsers demoLib [] 0)).2.2.1
      ⟨lit "alice", lit "a@x.com", lit "secret1"⟩ 1 (lit "0a") (fun _ => 5)
      ((1 : UInt8) :: lit "secret1") (by decide) (by decide)⟩

/-- C3: in every state of the user store reachable from `initializeTestUsers`
by serving register, login and validate requests one after the other (the
generated user id, the salt and the clock being arbitrary, the map being
visited in any order), the keys are pairwise different and any two distinct
stored identities differ in username and in email. -/
theorem reachable_unique_username_email (L : Lib) (users : Store) (h : Reachable L users) :
    (users.map Prod.fst).Nodup ∧
    ∀ a ∈ users, ∀ b ∈ users, a ≠ b →
      a.1 ≠ b.1 ∧ a.2.Username ≠ b.2.Username ∧ a.2.Email ≠ b.2.Email := by
  have hp := Reachable.pairwise h
  constructor
  · rw [List.Nodup, List.pairwise_map]
    exact hp.imp (fun hab => hab.1)
  · intro a ha b hb hab
    exact hp.forall (fun _ _ hxy => Distinct.symm hxy) ha hb hab

/-- C3 at a concrete input: the store after the seeding and one registration. -/
theorem reachable_unique_username_email_witness :
    ((serve demoLib (initializeTestUsers demoLib [] 0)
        (.register (some ⟨lit "alice", lit "a@x.com", lit "secret1"⟩) 1 (lit "0a")
          (fun _ => 5))).map Prod.fst).Nodup ∧
    ∀ a ∈ serve demoLib (initializeTestUsers demoLib [] 0)
        (.register (some ⟨lit "alice", lit "a@x.com", lit "secret1"⟩) 1 (lit "0a") (fun _ => 5)),
      ∀ b ∈ serve demoLib (initializeTestUsers demoLib [] 0)
        (.register (some ⟨lit "alice", lit "a@x.com", lit "secret1"⟩) 1 (lit "0a") (fun _ => 5)),
      a ≠ b → a.1 ≠ b.1 ∧ a.2.Username ≠ b.2.Username ∧ a.2.Email ≠ b.2.Email :=
  reachable_unique_username_email demoLib _ (Reachable.step _ (Reachable.init 0))

/-- C7: a header value that does not begin with the seven bytes "Bearer "
(the empty value, a value shorter than seven bytes and "bearer " included) is
answered 401, and the answer is the same whatever the library, the store and
the clock are: the token parser is not consulted.  A header value that does
begin with them has at least seven bytes, both slices are in range, and the
handler answers what lines 210-235 answer on exactly the header without its
first seven bytes.  The handler never panics. -/
theorem validateTokenHandler_bearer_header (L : Lib) (users : Store) (now : Int)
    (authHeader : GoString) :
    (¬ lit "Bearer " <+: authHeader →
      (∃ msg, validateTokenHandler L users now authHeader = .ok (httpError msg 401)) ∧
      ∀ (L' : Lib) (users' : Store) (now' : Int),
        validateTokenHandler L' users' now' authHeader =
          validateTokenHandler L users now authHeader) ∧
    (lit "Bearer " <+: authHeader →
      7 ≤ authHeader.length ∧
      sliceTo authHeader 7 = .ok (lit "Bearer ") ∧
      sliceFrom authHeader 7 = .ok (authHeader.drop 7) ∧
      lit "Bearer " ++ authHeader.drop 7 = authHeader ∧
      validateTokenHandler L users now authHeader =
        .ok (validateTokenString L users now (authHeader.drop 7))) ∧
    (∀ p, validateTokenHandler L users now authHeader ≠ .error p) := by
  refine ⟨?_, ?_, ?_⟩
  · intro hp
    constructor
    · exact ⟨_, validateTokenHandler_of_not_bearer L users now authHeader hp⟩
    · intro L' users' now'
      rw [validateTokenHandler_of_not_bearer L users now authHeader hp,
        validateTokenHandler_of_not_bearer L' users' now' authHeader hp]
  · intro hp
    obtain ⟨hlen, htake⟩ := (bearer_prefix_iff authHeader).1 hp
    refine ⟨hlen, ?_, ?_, ?_, validateTokenHandler_of_bearer L users now authHeader hp⟩
    · simp [sliceTo, hlen, htake]
    · simp only [sliceFrom]
      rw [if_pos (by omega)]
    · rw [← htake, List.take_append_drop]
  · intro p
    by_cases hp : lit "Bearer " <+: authHeader
    · rw [validateTokenHandler_of_bearer L users now authHeader hp]
      simp
    · rw [validateTokenHandler_of_not_bearer L users now authHeader hp]
      simp

/-- C7 at concrete inputs: "bearer abc" is refused, "Bearer abc" hands on "abc". -/
theorem validateTokenHandler_bearer_header_witness :
    (∃ msg, validateTokenHandler demoLib [] 0 (lit "bearer abc") = .ok (httpError msg 401)) ∧
    validateTokenHandler demoLib [] 0 (lit "Bearer abc") =
      .ok (validateTokenString demoLib [] 0 ((lit "Bearer abc").drop 7)) :=
  ⟨((validateTokenHandler_bearer_header demoLib [] 0 (lit "bearer abc")).1 (by decide)).1,
   ((validateTokenHandler_bearer_header demoLib [] 0 (lit "Bearer abc")).2.1 (by decide)).2.2.2.2⟩

/-- C9: for every token string that `jwt.ParseWithClaims` accepts (structure,
signature and time validation passed), `validateTokenHandler` answers
200 "valid" if and only if the `user_id` claim of the token is a key of the
user store; when it is not a key, the answer is 401 "User not found". -/
theorem validateTokenHandler_subject_exists (L : Lib) (users : Store) (now : Int)
    (tokenString : GoString) (token : Token)
    (hparse : ParseWithClaims L tokenString keyFunc now = .ok token) :
    (validateTokenHandler L users now (lit "Bearer " ++ tokenString) =
        .ok { status := 200, body := .text (lit "valid") } ↔
      token.Claims.UserID ∈ users.map Prod.fst) ∧
    (token.Claims.UserID ∉ users.map Prod.fst →
      validateTokenHandler L users now (lit "Bearer " ++ tokenString) =
        .ok (httpError (lit "User not found") StatusUnauthorized) ∧
      (httpError (lit "User not found") StatusUnauthorized).status = 401) := by
  have hhandler : validateTokenHandler L users now (lit "Bearer " ++ tokenString) =
      .ok (validateTokenString L users now tokenString) := by
    rw [validateTokenHandler_of_bearer L users now _ ⟨tokenString, rfl⟩]
    simp [lit_bearer]
  have hvalid := ParseWithClaims_valid hparse
  rw [hhandler]
  unfold validateTokenString
  simp only [hparse, hvalid, if_true]
  cases hget : users.get token.Claims.UserID with
  | none =>
    have hnot : token.Claims.UserID ∉ users.map Prod.fst := by
      intro hmem
      obtain ⟨u, hu⟩ := (Store.get_isSome_iff users _).2 hmem
      rw [hget] at hu
      cases hu
    refine ⟨⟨?_, fun hmem => absurd hmem hnot⟩, fun _ => ⟨rfl, rfl⟩⟩
    intro heq
    simp [httpError, StatusUnauthorized] at heq
  | some u =>
    have hmem : token.Claims.UserID ∈ users.map Prod.fst :=
      (Store.get_isSome_iff users _).1 ⟨u, hget⟩
    exact ⟨⟨fun _ => hmem, fun _ => rfl⟩, fun hnot => absurd hmem hnot⟩

/-- C9 at a concrete input: an HS256 token for the seeded user, checked
against the seeded store. -/
theorem validateTokenHandler_subject_exists_witness :
    validateTokenHandler demoLib (initializeTestUsers demoLib [] 0) 0
        (lit "Bearer " ++ issuedToken demoLib (generateJWTClaims
          ⟨lit "user1", lit "testuser", lit "test@example.com", []⟩ (fun _ => 0))) =
      .ok { status := 200, body := .text (lit "valid") } :=
  (validateTokenHandler_subject_exists demoLib (initializeTestUsers demoLib [] 0) 0
    (issuedToken demoLib (generateJWTClaims
      ⟨lit "user1", lit "testuser", lit "test@example.com", []⟩ (fun _ => 0)))
    { Raw := issuedToken demoLib (generateJWTClaims
        ⟨lit "user1", lit "testuser", lit "test@example.com", []⟩ (fun _ => 0))
      Method := .HS256
      HeaderAlg := lit "HS256"
      Claims := { UserID := lit "user1", Username := [], Issuer := [], Subject := lit "user1",
                  Audience := [], ExpiresAt := Option.none, NotBefore := Option.none,
                  IssuedAt := Option.none, ID := [] }
      Signature := demoLib.Sign .HS256 (lit "HS256.user1") jwtSecret
      Valid := true }
    (by decide)).1.2 (by decide)

/-- C1, as stated, fails: a token whose header declares HS384 (not the HS256
that `generateJWT` uses), signed with the deployment secret, gets the secret
from the key function without error and is answered 200 "valid". -/
theorem validateTokenHandler_accepts_HS384 :
    (demoLib.decodeSegments demoTokenHS384).map (fun d => d.headerAlg) =
      some (some (lit "HS384")) ∧
    lit "HS384" ≠ lit "HS256" ∧
    (ParseUnverified demoLib demoTokenHS384).map (fun r => keyFunc r.1) =
      .ok (.ok jwtSecret) ∧
    validateTokenHandler demoLib (initializeTestUsers demoLib [] 0) 0
        (lit "Bearer " ++ demoTokenHS384) =
      .ok { status := 200, body := .text (lit "valid") } := by
  decide

/-- C1, amended: for every token string handed to `validateTokenHandler`, if
the signing algorithm its header declares is none of HS256, HS384 and HS512
(the methods of type `*jwt.SigningMethodHMAC`), then the key function returns an
error whenever it is called on the parsed token, and the request is answered
401 "Invalid token", whatever the signature, the claims, the store and the
clock are; "none" and every non-HMAC algorithm are covered. -/
theorem validateTokenHandler_rejects_non_hmac (L : Lib) (users : Store) (now : Int)
    (tokenString : GoString)
    (halg : ∀ d, L.decodeSegments tokenString = some d →
      d.headerAlg ≠ some (lit "HS256") ∧ d.headerAlg ≠ some (lit "HS384") ∧
        d.headerAlg ≠ some (lit "HS512")) :
    validateTokenHandler L users now (lit "Bearer " ++ tokenString) =
      .ok (httpError (lit "Invalid token") StatusUnauthorized) ∧
    (httpError (lit "Invalid token") StatusUnauthorized).status = 401 ∧
    (∀ token d, ParseUnverified L tokenString = .ok (token, d) →
      keyFunc token = .error (lit "unexpected signing method: " ++ token.HeaderAlg)) := by
  refine ⟨?_, rfl, ?_⟩
  · have hhandler : validateTokenHandler L users now (lit "Bearer " ++ tokenString) =
        .ok (validateTokenString L users now tokenString) := by
      rw [validateTokenHandler_of_bearer L users now _ ⟨tokenString, rfl⟩]
      simp [lit_bearer]
    obtain ⟨e, he⟩ := ParseWithClaims_non_hmac L now tokenString halg
    rw [hhandler]
    simp [validateTokenString, he]
  · intro token d hparse
    unfold ParseUnverified at hparse
    cases hd : L.decodeSegments tokenString with
    | none => simp [hd] at hparse
    | some d' =>
      obtain ⟨h256, h384, h512⟩ := halg d' hd
      cases ha : d'.headerAlg with
      | none => simp [hd, ha] at hparse
      | some alg =>
        cases hm : GetSigningMethod alg with
        | none => simp [hd, ha, hm] at hparse
        | some m =>
          simp only [hd, ha, hm, Except.ok.injEq, Prod.mk.injEq] at hparse
          obtain ⟨htok, -⟩ := hparse
          have hnot : m.isHMAC = false := by
            cases hb : m.isHMAC with
            | false => rfl
            | true =>
              rcases GetSigningMethod_isHMAC hm hb with h | h | h
              · exact absurd (by rw [ha, h]) h256
              · exact absurd (by rw [ha, h]) h384
              · exact absurd (by rw [ha, h]) h512
          rw [← htok]
          simp [keyFunc, hnot]

/-- C1, amended, at a concrete input: a token declaring "none" with an empty
signature, for the seeded user. -/
theorem validateTokenHandler_rejects_non_hmac_witness :
    validateTokenHandler demoLib (initializeTestUsers demoLib [] 0) 0
        (lit "Bearer " ++ lit "none.user1.") =
      .ok (httpError (lit "Invalid token") StatusUnauthorized) :=
  (validateTokenHandler_rejects_non_hmac demoLib (initializeTestUsers demoLib [] 0) 0
    (lit "none.user1.") (by decide)).1

/-- C6: let the hasher produce for password `p` a hash against which `p`
verifies and no other password does.  For every store in which neither the
username `u` nor the email `e` is present, `register(u, e, p)` is answered 201
with the token of a claim set whose subject is the generated id; on the store
it leaves (visited in any order) `login(u, p)` is answered 200 with the token
of a claim set that has the same subject, and `login(u, q)` for any `q ≠ p` is
answered 401 "Invalid credentials". -/
theorem register_then_login (L : Lib) (users users' : Store) (u e p : GoString) (salt : Nat)
    (userID hashed : GoString) (clock₁ clock₂ clock₃ : Nat → Int)
    (hfresh : ∀ x ∈ users, x.2.Username ≠ u ∧ x.2.Email ≠ e)
    (hhash : L.GenerateFromPassword p DefaultCost salt = .ok hashed)
    (hsame : L.CompareHashAndPassword hashed p = Option.none)
    (hother : ∀ q, q ≠ p → L.CompareHashAndPassword hashed q ≠ Option.none)
    (hperm : (registerHandler L users (some ⟨u, e, p⟩) salt userID clock₁).1.Perm users') :
    ∃ c₁ c₂ : Claims,
      (registerHandler L users (some ⟨u, e, p⟩) salt userID clock₁).2 =
        { status := 201, body := .json ⟨issuedToken L c₁, ⟨userID, u, e, []⟩⟩ } ∧
      c₁.Subject = userID ∧
      loginHandler L users' (some ⟨u, p⟩) clock₂ =
        (users', { status := 200, body := .json ⟨issuedToken L c₂, ⟨userID, u, e, []⟩⟩ }) ∧
      c₂.Subject = c₁.Subject ∧ c₂.UserID = c₁.UserID ∧
      ∀ q, q ≠ p →
        loginHandler L users' (some ⟨u, q⟩) clock₃ =
          (users', httpError (lit "Invalid credentials") StatusUnauthorized) := by
  have hany : users.any (fun x => x.2.Username = u || x.2.Email = e) = false := by
    rw [List.any_eq_false]
    intro x hx
    have := hfresh x hx
    simp [this.1, this.2]
  have hreg : registerHandler L users (some ⟨u, e, p⟩) salt userID clock₁ =
      (users.set userID ⟨userID, u, e, hashed⟩,
       { status := 201,
         body := .json ⟨issuedToken L (generateJWTClaims ⟨userID, u, e, hashed⟩ clock₁),
                        ⟨userID, u, e, []⟩⟩ }) := by
    simp [registerHandler, hany, hhash, generateJWT_eq, StatusCreated]
  rw [hreg] at hperm ⊢
  have hfind : users'.find? (fun x => x.2.Username = u) = some (userID, ⟨userID, u, e, hashed⟩) :=
    find_username_after_set (v := ⟨userID, u, e, hashed⟩) (fun x hx => (hfresh x hx).1) hperm
  refine ⟨generateJWTClaims ⟨userID, u, e, hashed⟩ clock₁,
    generateJWTClaims ⟨userID, u, e, hashed⟩ clock₂, rfl, rfl, ?_, rfl, rfl, ?_⟩
  · simp [loginHandler, hfind, hsame, generateJWT_eq, StatusOK]
  · intro q hq
    cases hcmp : L.CompareHashAndPassword hashed q with
    | none => exact absurd hcmp (hother q hq)
    | some err => simp [loginHandler, hfind, hcmp]

/-- C6 at the concrete input of the claim: register("alice", "a@x.com",
"secret1") on the seeded store, then login("alice", "secret1") and
login("alice", "wrong"). -/
theorem register_then_login_witness :
    ∃ c₁ c₂ : Claims,
      (registerHandler demoLib (initializeTestUsers demoLib [] 0)
          (some ⟨lit "alice", lit "a@x.com", lit "secret1"⟩) 1 (lit "0a") (fun _ => 5)).2 =
        { status := 201,
          body := .json ⟨issuedToken demoLib c₁, ⟨lit "0a", lit "alice", lit "a@x.com", []⟩⟩ } ∧
      c₁.Subject = lit "0a" ∧
      loginHandler demoLib
          (registerHandler demoLib (initializeTestUsers demoLib [] 0)
            (some ⟨lit "alice", lit "a@x.com", lit "secret1"⟩) 1 (lit "0a") (fun _ => 5)).1
          (some ⟨lit "alice", lit "secret1"⟩) (fun _ => 6) =
        ((registerHandler demoLib (initializeTestUsers demoLib [] 0)
            (some ⟨lit "alice", lit "a@x.com", lit "secret1"⟩) 1 (lit "0a") (fun _ => 5)).1,
         { status := 200,
           body := .json ⟨issuedToken demoLib c₂, ⟨lit "0a", lit "alice", lit "a@x.com", []⟩⟩ }) ∧
      c₂.Subject = c₁.Subject ∧ c₂.UserID = c₁.UserID ∧
      ∀ q, q ≠ lit "secret1" →
        loginHandler demoLib
            (registerHandler demoLib (initializeTestUsers demoLib [] 0)
              (some ⟨lit "alice", lit "a@x.com", lit "secret1"⟩) 1 (lit "0a") (fun _ => 5)).1
            (some ⟨lit "alice", q⟩) (fun _ => 7) =
          ((registerHandler demoLib (initializeTestUsers demoLib [] 0)
              (some ⟨lit "alice", lit "a@x.com", lit "secret1"⟩) 1 (lit "0a") (fun _ => 5)).1,
           httpError (lit "Invalid credentials") StatusUnauthorized) :=
  register_then_login demoLib (initializeTestUsers demoLib [] 0) _ (lit "alice") (lit "a@x.com")
    (lit "secret1") 1 (lit "0a") ((1 : UInt8) :: lit "secret1") (fun _ => 5) (fun _ => 6)
    (fun _ => 7) (by decide) (by decide) (by decide)
    (by
      intro q hq
      simp only [demoLib]
      rw [if_neg (fun h => hq h.symm)]
      simp)
    (List.Perm.refl _)

/-- C10, as stated, fails: two registrations of the username "racer" whose
accesses to the map alternate (loop of the first, loop of the second, write of
the first, write of the second) are both answered 201, and two identities with
that username are stored; served one after the other, the same two calls are
answered 201 and 409. -/
theorem overlapping_registrations_both_succeed :
    (runSchedule demoLib demoRacers (initializeTestUsers demoLib [] 0) [.start, .start]
        [0, 1, 0, 1]).2.map Progress.status = [some 201, some 201] ∧
    ((runSchedule demoLib demoRacers (initializeTestUsers demoLib [] 0) [.start, .start]
        [0, 1, 0, 1]).1.filter (fun e => e.2.Username = lit "racer")).map Prod.fst =
      [lit "id1", lit "id2"] ∧
    demoRacers.map (fun c => c.req.Username) = [lit "racer", lit "racer"] ∧
    (runSchedule demoLib demoRacers (initializeTestUsers demoLib [] 0) [.start, .start]
        [0, 0, 1, 1]).2.map Progress.status = [some 201, some 409] := by
  decide

/-- C10, amended: when registration requests with the same username are
served one after the other, each `registerHandler` call running to its end
before the next starts, from a reachable store, at most one of them is answered
201 and at most one identity with that username is stored afterwards; exactly
one is answered 201 when the store holds neither the username nor the email of
the first request and the password of the first request hashes. -/
theorem sequential_registrations_same_username (L : Lib) (users : Store)
    (calls : List RegisterCall) (u : GoString)
    (hreach : Reachable L users) (hsame : ∀ c ∈ calls, c.req.Username = u) :
    created (serveRegistrations L users calls).2 ≤ 1 ∧
    ((serveRegistrations L users calls).1.filter (fun e => e.2.Username = u)).length ≤ 1 ∧
    (∀ (c : RegisterCall) (rest : List RegisterCall) (hashed : GoString),
      calls = c :: rest →
      (∀ x ∈ users, x.2.Username ≠ u ∧ x.2.Email ≠ c.req.Email) →
      L.GenerateFromPassword c.req.Password DefaultCost c.salt = .ok hashed →
      created (serveRegistrations L users calls).2 = 1 ∧
      ((serveRegistrations L users calls).1.filter (fun e => e.2.Username = u)).length = 1) := by
  have hle := serveRegistrations_created_le_one L u calls users hsame
  have hfilter := filter_username_length_le_one
    (Reachable.pairwise (serveRegistrations_reachable L calls users hreach)) u
  refine ⟨hle, hfilter, ?_⟩
  intro c rest hashed hcalls hfresh hhash
  subst hcalls
  have hc : c.req.Username = u := hsame c (List.mem_cons_self _ _)
  have hrest : ∀ x ∈ rest, x.req.Username = u := fun x hx => hsame x (List.mem_cons_of_mem _ hx)
  have hany : users.any (fun x => x.2.Username = c.req.Username || x.2.Email = c.req.Email) =
      false := by
    rw [List.any_eq_false]
    intro x hx
    have := hfresh x hx
    simp [hc, this.1, this.2]
  have hst : (registerHandler L users (some c.req) c.salt c.userID c.clock).2.status =
      StatusCreated := by
    simp [registerHandler, hany, hhash, generateJWT_eq]
  obtain ⟨hashed', -, -, heq⟩ := registerHandler_created hst
  have hpresent : ∃ e ∈ (registerHandler L users (some c.req) c.salt c.userID c.clock).1,
      e.2.Username = u := by
    rw [heq]
    exact ⟨_, Store.mem_set_self users c.userID _, hc⟩
  obtain ⟨hstore, h0⟩ := serveRegistrations_of_present L u rest _ hpresent hrest
  have hcount : created (serveRegistrations L users (c :: rest)).2 = 1 := by
    simp only [created] at h0
    simp only [serveRegistrations, created, List.countP_cons]
    rw [h0]
    simp [hst]
  refine ⟨hcount, ?_⟩
  apply Nat.le_antisymm hfilter
  have hmem : ∃ e ∈ (serveRegistrations L users (c :: rest)).1, e.2.Username = u := by
    simp only [serveRegistrations]
    rw [hstore]
    exact hpresent
  obtain ⟨e, he, heu⟩ := hmem
  exact List.length_pos_of_mem (List.mem_filter.2 ⟨he, by simpa using heu⟩)

/-- C10, amended, at a concrete input: the two registrations of "racer" served
one after the other from the seeded store. -/
theorem sequential_registrations_same_username_witness :
    created (serveRegistrations demoLib (initializeTestUsers demoLib [] 0) demoRacers).2 = 1 ∧
    ((serveRegistrations demoLib (initializeTestUsers demoLib [] 0) demoRacers).1.filter
        (fun e => e.2.Username = lit "racer")).length = 1 :=
  (sequential_registrations_same_username demoLib (initializeTestUsers demoLib [] 0) demoRacers
    (lit "racer") (Reachable.init 0) (by decide)).2.2
    { req := ⟨lit "racer", lit "r1@x.com", lit "pw1"⟩, salt := 1, userID := lit "id1",
      clock := fun _ => 5 }
    [{ req := ⟨lit "racer", lit "r2@x.com", lit "pw2"⟩, salt := 2, userID := lit "id2",
       clock := fun _ => 5 }]
    ((1 : UInt8) :: lit "pw1") rfl (by decide) (by decide)

end AuthService
